import Mathlib

/-!
Verification of the `@devhuset-oss/ratelimit` rate limiter.

The development shallowly embeds the TypeScript sources (class `Ratelimit`
with its fixed-window and sliding-window engines) and the Lua script
`SLIDING_WINDOW_SCRIPT` executed server-side by Valkey.  JavaScript numbers
and Lua numbers are embedded as exact integers (`Int`) — all quantities the
claims range over (counters produced by INCR, wall-clock milliseconds,
window sizes, limits) are integers, for which JS/Lua double arithmetic is
exact; the one claim about non-integral configuration values uses a second
embedding over `ℚ` (`JsNum` below), which is exact rational-number
semantics of the same functions.  `Math.floor`/`math.floor`/`math.ceil`
of a float division are embedded as `Int.floor`/`Int.ceil` of the exact
rational division; Lua's `%` (floored remainder) is `Int.fmod`.

The key/value store is a snapshot `Store`: a value map and a TTL map
(milliseconds), both keyed by strings.  Store commands (GET, SET, INCR,
EXPIRE, PEXPIRE, TTL) are pure state transformers; the embedded `limit`
call threads the store explicitly.  The time provider is modeled by
passing the instants it returns (`now`, and `now2` for the second reading
performed by the sliding path when building `reset`) as arguments.

Driver errors do not occur in the pure store model; the `try/catch`
wrapper in `Ratelimit.limit` is embedded separately as `limitCatch`, a
function of the outcome of the awaited engine computation, together with
a model `JsError` of JavaScript error values (name, message, cause).
-/

/-- JavaScript error value: a `name`, a `message`, and an optional `cause`
chain (the `originalError` field of the repository's `ValkeyError`). -/
inductive JsError where
  | mk (name : String) (message : String) (cause : Option JsError)

/-- The `name` property of a JS error. -/
def JsError.name : JsError → String
  | .mk n _ _ => n

/-- The `message` property of a JS error. -/
def JsError.message : JsError → String
  | .mk _ m _ => m

/-- The attached original error, if any. -/
def JsError.cause : JsError → Option JsError
  | .mk _ _ c => c

/-- Models `new ConfigurationError(message)` from `src/errors.ts`: an `Error`
subclass with `name = "ConfigurationError"`. -/
def ConfigurationError (message : String) : JsError :=
  JsError.mk ("ConfigurationError") message none

/-- Models `new ValkeyError(message, originalError)` from `src/errors.ts`: an
`Error` subclass with `name = "ValkeyError"` carrying the original error. -/
def ValkeyError (message : String) (originalError : JsError) : JsError :=
  JsError.mk ("ValkeyError") message (some originalError)

/-- A JavaScript thrown value: either an `Error` instance or any other
value, which the catch clause in `Ratelimit.limit` observes via
`String(error)`. -/
inductive Thrown where
  | error (e : JsError)
  | nonError (s : String)

/-- Models `error instanceof Error ? error : new Error(String(error))` from the
catch clause of `Ratelimit.limit`. -/
def Thrown.toError : Thrown → JsError
  | .error e => e
  | .nonError s => JsError.mk ("Error") s none

/-- Snapshot of the Valkey keyspace: stored values (decimal integers) and
per-key TTLs in milliseconds.  `none` in `val` means the key is absent;
`none` in `pttl` means the key has no expiration set. -/
structure Store where
  val : String → Option Int
  pttl : String → Option Int

/-- The store with no keys. -/
def emptyStore : Store :=
  { val := fun _ => none, pttl := fun _ => none }

/-- Command `GET key`. -/
def Store.get (s : Store) (k : String) : Option Int :=
  s.val k

/-- Command `SET key v`. -/
def Store.set (s : Store) (k : String) (v : Int) : Store :=
  { s with val := fun k2 => if k2 = k then some v else s.val k2 }

/-- Command `INCR key`: increments the integer at `key` (missing counts as 0) and
returns the new value together with the updated store. -/
def Store.incr (s : Store) (k : String) : Int × Store :=
  let v := (s.val k).getD 0 + 1
  (v, s.set k v)

/-- Command `PEXPIRE key ms`: sets the key's TTL in milliseconds. -/
def Store.pexpire (s : Store) (k : String) (ms : Int) : Store :=
  { s with pttl := fun k2 => if k2 = k then some ms else s.pttl k2 }

/-- Command `EXPIRE key seconds`: sets the key's TTL, recorded in milliseconds. -/
def Store.expire (s : Store) (k : String) (seconds : Int) : Store :=
  s.pexpire k (seconds * 1000)

/-- Command `TTL key`: remaining TTL in whole seconds; `-2` when the key is
absent, `-1` when it has no expiration (Redis rounds the millisecond TTL
to the nearest second). -/
def Store.ttl (s : Store) (k : String) : Int :=
  match s.val k with
  | none => -2
  | some _ =>
    match s.pttl k with
    | none => -1
    | some t => (t + 500) / 1000

/-- Structure `RatelimitOptions` from `src/types.ts` as consumed by the class:
algorithm kind (the source's `type`, a string checked at runtime), the
limit, the window in seconds, and the optional key-namespace `prefix`
(field renamed `keyPrefix` here). -/
structure RatelimitOptions where
  type : String
  limit : Int
  window : Int
  keyPrefix : Option String
deriving DecidableEq

/-- Structure `RatelimitResponse` from `src/types.ts`. -/
structure RatelimitResponse where
  success : Bool
  limit : Int
  remaining : Int
  retry_after : Int
  reset : Int
deriving DecidableEq

/-- Method `Ratelimit.getKey`: `` `${prefix}:${identifier}:${suffix}` `` with
`options.prefix || 'ratelimit'` (empty string is falsy in JS). -/
def Ratelimit.getKey (o : RatelimitOptions) (identifier suffix : String) : String :=
  (match o.keyPrefix with
   | some p => if p = ("") then ("ratelimit") else p
   | none => ("ratelimit")) ++ (":") ++ identifier ++ (":") ++ suffix

/-- Computes `Math.floor(now / (window * 1000))`, the window index computed by both
engines (`current_window` in the source). -/
def Ratelimit.windowIndex (o : RatelimitOptions) (now : Int) : Int :=
  ⌊((now : ℚ)) / (((o.window * 1000 : Int) : ℚ))⌋

/-- Lua `local time_in_current = now % window` from the Lua script (Lua's `%`
is the floored remainder, `Int.fmod`). -/
def time_in_current (now window : Int) : Int :=
  Int.fmod now window

/-- Lua `local time_remaining_previous = window - time_in_current`. -/
def time_remaining_previous (now window : Int) : Int :=
  window - time_in_current now window

/-- Lua `local weighted_previous = (previous_count * time_remaining_previous) / window`
(Lua float division, exact here as a rational). -/
def weighted_previous (previous_count now window : Int) : ℚ :=
  ((previous_count * time_remaining_previous now window : Int) : ℚ) / ((window : Int) : ℚ)

/-- Lua `local cumulative_count = math.floor(weighted_previous) + current_count + increment_by`. -/
def cumulative_count (previous_count current_count now window increment_by : Int) : Int :=
  ⌊weighted_previous previous_count now window⌋ + current_count + increment_by

/-- The Lua script `SLIDING_WINDOW_SCRIPT` from `src/client.ts`, executed
atomically by the store: reads both counters (missing as 0), denies with
`{-1, retry_after}` leaving the store untouched when
`cumulative_count > tokens`, otherwise writes the incremented current
counter, refreshes its TTL to `window * 2 + 1000` ms, and returns the
slots left and 0. -/
def SLIDING_WINDOW_SCRIPT (current_key previous_key : String)
    (tokens now window increment_by : Int) (s : Store) : (Int × Int) × Store :=
  let current_count := (s.get current_key).getD 0
  let previous_count := (s.get previous_key).getD 0
  let cum := cumulative_count previous_count current_count now window increment_by
  if cum > tokens then
    let needed := cum - tokens + increment_by
    let retry_after := window - time_in_current now window
    let retry_after :=
      if previous_count > 0 then
        let t := ⌈((needed * window : Int) : ℚ) / ((previous_count : Int) : ℚ)⌉
        if t > time_remaining_previous now window then time_remaining_previous now window
        else t
      else retry_after
    ((-1, retry_after), s)
  else
    let current_count := current_count + increment_by
    let s1 := s.set current_key current_count
    let s2 := s1.pexpire current_key (window * 2 + 1000)
    ((tokens - (⌊weighted_previous previous_count now window⌋ + current_count), 0), s2)

/-- Method `Ratelimit.validateOptions`, called from the constructor: throws a
`ConfigurationError` for a non-positive limit, a non-positive window, or
a kind other than `"fixed"`/`"sliding"`, in that order. -/
def Ratelimit.validateOptions (o : RatelimitOptions) : Except JsError Unit :=
  if o.limit ≤ 0 then
    Except.error (ConfigurationError ("Limit must be greater than 0"))
  else if o.window ≤ 0 then
    Except.error (ConfigurationError ("Time window must be greater than 0"))
  else if o.type ≠ ("fixed") ∧ o.type ≠ ("sliding") then
    Except.error (ConfigurationError ("Type must be either \"fixed\" or \"sliding\""))
  else
    Except.ok ()

/-- The `Ratelimit` constructor: validates the options eagerly and, when
they pass, produces the configured limiter (represented by its options). -/
def Ratelimit.construct (o : RatelimitOptions) : Except JsError RatelimitOptions :=
  (Ratelimit.validateOptions o).map fun _ => o

/-- Method `Ratelimit.fixedWindowLimit`: INCR the window's counter, set its TTL
to `window` seconds when the new count is 1, then answer from the count.
`now` is the single time-provider reading of the call. -/
def Ratelimit.fixedWindowLimit (o : RatelimitOptions) (identifier : String)
    (now : Int) (s : Store) : RatelimitResponse × Store :=
  let window_size := o.window
  let current_window := Ratelimit.windowIndex o now
  let window_key := Ratelimit.getKey o identifier (toString current_window)
  let window_end := (current_window + 1) * (window_size * 1000)
  let r := s.incr window_key
  let count := r.1
  let s1 := if count = 1 then r.2.expire window_key window_size else r.2
  if count > o.limit then
    let ttl := s1.ttl window_key
    ({ success := false, limit := o.limit, remaining := 0,
       retry_after := max (ttl * 1000) 0, reset := window_end }, s1)
  else
    ({ success := true, limit := o.limit, remaining := o.limit - count,
       retry_after := 0, reset := window_end }, s1)

/-- Method `Ratelimit.slidingWindowLimit`: runs the script against the current
and previous window keys and builds the response.  `now` is the first
time-provider reading, `now2` the second one used for `reset`. -/
def Ratelimit.slidingWindowLimit (o : RatelimitOptions) (identifier : String)
    (now now2 : Int) (s : Store) : RatelimitResponse × Store :=
  let window := o.window * 1000
  let current_window := Ratelimit.windowIndex o now
  let previous_window := current_window - 1
  let current_key := Ratelimit.getKey o identifier (toString current_window)
  let previous_key := Ratelimit.getKey o identifier (toString previous_window)
  let res := SLIDING_WINDOW_SCRIPT current_key previous_key o.limit now window 1 s
  let remaining := res.1.1
  let retry_after := res.1.2
  ({ success := decide (remaining ≥ 0), limit := o.limit,
     remaining := max 0 remaining, retry_after := retry_after,
     reset := now2 + o.window * 2000 }, res.2)

/-- Method `Ratelimit.limit`'s dispatch on the algorithm kind (the store model is
pure, so the catch clause is unreachable here; it is embedded separately
as `limitCatch`). -/
def Ratelimit.limit (o : RatelimitOptions) (identifier : String)
    (now now2 : Int) (s : Store) : RatelimitResponse × Store :=
  if o.type = ("fixed") then Ratelimit.fixedWindowLimit o identifier now s
  else Ratelimit.slidingWindowLimit o identifier now now2 s

/-- The `try/catch` of `Ratelimit.limit` as a function of the awaited
engine outcome: a thrown store error is rewrapped as
`new ValkeyError('Failed to check rate limit', error instanceof Error ?
error : new Error(String(error)))` and rethrown. -/
def limitCatch (result : Except Thrown RatelimitResponse) : Except JsError RatelimitResponse :=
  match result with
  | .ok r => .ok r
  | .error t => .error (ValkeyError ("Failed to check rate limit") t.toError)

/-- Store contents after `n` sequential `limit(identifier)` calls starting
from the empty store, with the time provider frozen at `now`. -/
def Ratelimit.storeAfter (o : RatelimitOptions) (identifier : String) (now : Int) : Nat → Store
  | 0 => emptyStore
  | n + 1 =>
    (Ratelimit.limit o identifier now now (Ratelimit.storeAfter o identifier now n)).2

/-- The response of the `(n+1)`-th sequential `limit(identifier)` call of
the same frozen-time sequence. -/
def Ratelimit.nthResponse (o : RatelimitOptions) (identifier : String)
    (now : Int) (n : Nat) : RatelimitResponse :=
  (Ratelimit.limit o identifier now now (Ratelimit.storeAfter o identifier now n)).1

/-- The current window's counter key, `getKey(identifier, current_window.toString())`,
as computed by both engines. -/
def Ratelimit.currentWindowKey (o : RatelimitOptions) (identifier : String) (now : Int) : String :=
  Ratelimit.getKey o identifier (toString (Ratelimit.windowIndex o now))

/-- The previous window's counter key, `getKey(identifier, previous_window.toString())`,
as computed by the sliding engine. -/
def Ratelimit.previousWindowKey (o : RatelimitOptions) (identifier : String) (now : Int) : String :=
  Ratelimit.getKey o identifier (toString (Ratelimit.windowIndex o now - 1))

/-- The `retry_after` value computed by the script's denial branch:
`math.ceil(needed * window / previous_count)` clamped to
`time_remaining_previous` when `previous_count > 0`, the time left in the
current window otherwise. -/
def script_retry_after (previous_count current_count tokens now window increment_by : Int) : Int :=
  let needed := cumulative_count previous_count current_count now window increment_by
    - tokens + increment_by
  if previous_count > 0 then
    let t := ⌈((needed * window : Int) : ℚ) / ((previous_count : Int) : ℚ)⌉
    if t > time_remaining_previous now window then time_remaining_previous now window
    else t
  else window - time_in_current now window

namespace JsNum

/-- Structure `RatelimitOptions` with `limit` and `window` kept at JavaScript-number
(exact rational) precision, for the claims about non-integral
configurations. -/
structure RatelimitOptions where
  type : String
  limit : ℚ
  window : ℚ
  keyPrefix : Option String

/-- Structure `RatelimitResponse` with JavaScript-number fields. -/
structure RatelimitResponse where
  success : Bool
  limit : ℚ
  remaining : ℚ
  retry_after : ℚ
  reset : ℚ
deriving DecidableEq

/-- Store snapshot for the rational embedding: INCR counters stay
integers, TTLs are kept in (rational) milliseconds. -/
structure Store where
  val : String → Option Int
  pttl : String → Option ℚ

/-- The store with no keys. -/
def emptyStore : Store :=
  { val := fun _ => none, pttl := fun _ => none }

/-- Command `SET key v`. -/
def Store.set (s : Store) (k : String) (v : Int) : Store :=
  { s with val := fun k2 => if k2 = k then some v else s.val k2 }

/-- Command `INCR key`. -/
def Store.incr (s : Store) (k : String) : Int × Store :=
  let v := (s.val k).getD 0 + 1
  (v, s.set k v)

/-- Command `PEXPIRE key ms`. -/
def Store.pexpire (s : Store) (k : String) (ms : ℚ) : Store :=
  { s with pttl := fun k2 => if k2 = k then some ms else s.pttl k2 }

/-- Command `EXPIRE key seconds`. -/
def Store.expire (s : Store) (k : String) (seconds : ℚ) : Store :=
  s.pexpire k (seconds * 1000)

/-- Command `TTL key` in whole seconds (`-2` absent, `-1` no expiration). -/
def Store.ttl (s : Store) (k : String) : ℚ :=
  match s.val k with
  | none => -2
  | some _ =>
    match s.pttl k with
    | none => -1
    | some t => ((⌊(t + 500) / 1000⌋ : Int) : ℚ)

/-- Method `Ratelimit.getKey` for the rational embedding. -/
def getKey (o : RatelimitOptions) (identifier suffix : String) : String :=
  (match o.keyPrefix with
   | some p => if p = ("") then ("ratelimit") else p
   | none => ("ratelimit")) ++ (":") ++ identifier ++ (":") ++ suffix

/-- Method `Ratelimit.validateOptions` at JavaScript-number precision: the same
three checks, none of which tests integrality. -/
def validateOptions (o : RatelimitOptions) : Except JsError Unit :=
  if o.limit ≤ 0 then
    Except.error (ConfigurationError ("Limit must be greater than 0"))
  else if o.window ≤ 0 then
    Except.error (ConfigurationError ("Time window must be greater than 0"))
  else if o.type ≠ ("fixed") ∧ o.type ≠ ("sliding") then
    Except.error (ConfigurationError ("Type must be either \"fixed\" or \"sliding\""))
  else
    Except.ok ()

/-- The `Ratelimit` constructor at JavaScript-number precision. -/
def construct (o : RatelimitOptions) : Except JsError RatelimitOptions :=
  (validateOptions o).map fun _ => o

/-- Computes `Math.floor(now / (window * 1000))`. -/
def windowIndex (o : RatelimitOptions) (now : ℚ) : Int :=
  ⌊now / (o.window * 1000)⌋

/-- Method `Ratelimit.fixedWindowLimit` at JavaScript-number precision; the
`remaining` field is `options.limit - count` with no rounding. -/
def fixedWindowLimit (o : RatelimitOptions) (identifier : String)
    (now : ℚ) (s : Store) : RatelimitResponse × Store :=
  let window_size := o.window
  let current_window := windowIndex o now
  let window_key := getKey o identifier (toString current_window)
  let window_end := ((current_window : ℚ) + 1) * (window_size * 1000)
  let r := s.incr window_key
  let count := r.1
  let s1 := if count = 1 then r.2.expire window_key window_size else r.2
  if (count : ℚ) > o.limit then
    let ttl := s1.ttl window_key
    ({ success := false, limit := o.limit, remaining := 0,
       retry_after := max (ttl * 1000) 0, reset := window_end }, s1)
  else
    ({ success := true, limit := o.limit, remaining := o.limit - (count : ℚ),
       retry_after := 0, reset := window_end }, s1)

end JsNum

/-- Decimal digit characters of a natural number, most significant first;
a fuel-free restatement of core's `Nat.toDigitsCore` at base 10, used to
reason about the window-index key suffixes produced by `toString`. -/
def decDigits (n : Nat) : List Char :=
  if h : n < 10 then [Nat.digitChar n]
  else decDigits (n / 10) ++ [Nat.digitChar (n % 10)]
decreasing_by
  exact Nat.div_lt_self (by omega) (by omega)

/-! ### Concrete fixtures used by witnesses and counterexamples -/

/-- A fixed-window configuration with limit 1 and window 1 s. -/
def oFixed11 : RatelimitOptions :=
  { type := ("fixed"), limit := 1, window := 1, keyPrefix := none }

/-- A sliding-window configuration with limit 2 and window 1 s. -/
def oSliding21 : RatelimitOptions :=
  { type := ("sliding"), limit := 2, window := 1, keyPrefix := none }

/-- A store holding 2 at key `"p"` and nothing else. -/
def storePrev2 : Store :=
  { val := fun k => if k = ("p") then some 2 else none, pttl := fun _ => none }

/-- A store holding 1 at key `"c"` and nothing else. -/
def storeCur1 : Store :=
  { val := fun k => if k = ("c") then some 1 else none, pttl := fun _ => none }

/-- A store holding 1 at the fixed-window key of identifier `"a"` for
window index 0, with no TTL set (e.g. after a dropped EXPIRE). -/
def storeFull1 : Store :=
  { val := fun k => if k = ("ratelimit:a:0") then some 1 else none, pttl := fun _ => none }

/-- A configuration whose limit is the non-integral number 2.5. -/
def oQhalf : JsNum.RatelimitOptions :=
  { type := ("fixed"), limit := 5 / 2, window := 10, keyPrefix := none }

/-! ### Arithmetic bridge lemmas -/

/-- Floor of an exact rational division of integers is integer floor
division. -/
lemma floor_intCast_div (a : Int) {b : Int} (hb : 0 < b) :
    ⌊((a : ℚ)) / ((b : ℚ))⌋ = a / b := by
  obtain ⟨n, rfl⟩ : ∃ n : ℕ, b = (n : Int) := ⟨b.toNat, (Int.toNat_of_nonneg hb.le).symm⟩
  push_cast
  exact Rat.floor_intCast_div_natCast a n

/-- Ceiling of an exact rational division of integers, as negated floor
division. -/
lemma ceil_intCast_div (a : Int) {b : Int} (hb : 0 < b) :
    ⌈((a : ℚ)) / ((b : ℚ))⌉ = -(-a / b) := by
  have h : ⌊(((-a : Int)) : ℚ) / ((b : ℚ))⌋ = -a / b := floor_intCast_div (-a) hb
  rw [Int.cast_neg, neg_div, Int.floor_neg] at h
  omega

/-- The remainder `now % window` is nonnegative for a positive window. -/
lemma time_in_current_nonneg (now : Int) {window : Int} (hw : 0 < window) :
    0 ≤ time_in_current now window := by
  unfold time_in_current
  rw [Int.fmod_eq_emod _ hw.le]
  exact Int.emod_nonneg now (by omega)

/-- The remainder `now % window` is below a positive window. -/
lemma time_in_current_lt (now : Int) {window : Int} (hw : 0 < window) :
    time_in_current now window < window := by
  unfold time_in_current
  rw [Int.fmod_eq_emod _ hw.le]
  exact Int.emod_lt_of_pos now hw

/-- The remaining share of the previous window is positive. -/
lemma time_remaining_previous_pos (now : Int) {window : Int} (hw : 0 < window) :
    0 < time_remaining_previous now window := by
  have h := time_in_current_lt now hw
  unfold time_remaining_previous
  omega

/-- The remaining share of the previous window is at most the window. -/
lemma time_remaining_previous_le (now : Int) {window : Int} (hw : 0 < window) :
    time_remaining_previous now window ≤ window := by
  have h := time_in_current_nonneg now hw
  unfold time_remaining_previous
  omega

/-- The floored weighted previous contribution is nonnegative for a
nonnegative previous counter. -/
lemma floor_weighted_nonneg {p : Int} (now : Int) {window : Int}
    (hp : 0 ≤ p) (hw : 0 < window) :
    0 ≤ ⌊weighted_previous p now window⌋ := by
  apply Int.floor_nonneg.mpr
  unfold weighted_previous
  apply div_nonneg
  · exact_mod_cast mul_nonneg hp (time_remaining_previous_pos now hw).le
  · exact_mod_cast hw.le

/-- Rewrites `cumulative_count` as a value computed with integer floor division (for a
positive window). -/
lemma cumulative_count_eq (p c now window inc : Int) (hw : 0 < window) :
    cumulative_count p c now window inc
      = p * time_remaining_previous now window / window + c + inc := by
  unfold cumulative_count weighted_previous
  rw [floor_intCast_div _ hw]

/-- Rewrites `windowIndex` as a value computed with integer floor division (for a positive
window). -/
lemma windowIndex_eq (o : RatelimitOptions) (now : Int) (hw : 0 < o.window) :
    Ratelimit.windowIndex o now = now / (o.window * 1000) := by
  unfold Ratelimit.windowIndex
  exact floor_intCast_div now (by omega)

/-! ### Script characterization lemmas -/

/-- Denial branch of the sliding script: result `(-1, retry_after)` and an
untouched store. -/
lemma script_deny (current_key previous_key : String)
    (tokens now window increment_by : Int) (s : Store)
    (h : tokens < cumulative_count ((s.val previous_key).getD 0)
      ((s.val current_key).getD 0) now window increment_by) :
    SLIDING_WINDOW_SCRIPT current_key previous_key tokens now window increment_by s =
      ((-1, script_retry_after ((s.val previous_key).getD 0) ((s.val current_key).getD 0)
          tokens now window increment_by), s) := by
  simp only [SLIDING_WINDOW_SCRIPT, Store.get, script_retry_after]
  rw [if_pos h]

/-- Admission branch of the sliding script: increments the current
counter, refreshes its TTL, and reports the slots left. -/
lemma script_grant (current_key previous_key : String)
    (tokens now window increment_by : Int) (s : Store)
    (h : cumulative_count ((s.val previous_key).getD 0)
      ((s.val current_key).getD 0) now window increment_by ≤ tokens) :
    SLIDING_WINDOW_SCRIPT current_key previous_key tokens now window increment_by s =
      ((tokens - (⌊weighted_previous ((s.val previous_key).getD 0) now window⌋
          + ((s.val current_key).getD 0 + increment_by)), 0),
        (s.set current_key ((s.val current_key).getD 0 + increment_by)).pexpire current_key
          (window * 2 + 1000)) := by
  simp only [SLIDING_WINDOW_SCRIPT, Store.get]
  rw [if_neg (not_lt.mpr h)]

/-! ### Claim C2 -/

/-- Claim C2: for every store state with nonnegative integer counters and a
call with increment 1 in which `cumulative > limit` and
`previous_count > 0`, the sliding script returns
`[-1, min(⌈needed·window/previous_count⌉, time_remaining_previous)]`
where `needed = cumulative - limit + 1`, and modifies neither key (the
store comes back unchanged). -/
theorem script_denial_previous_positive (current_key previous_key : String)
    (tokens now window : Int) (s : Store)
    (hc : 0 ≤ (s.val current_key).getD 0)
    (hp : 0 < (s.val previous_key).getD 0)
    (hdeny : tokens < cumulative_count ((s.val previous_key).getD 0)
      ((s.val current_key).getD 0) now window 1) :
    SLIDING_WINDOW_SCRIPT current_key previous_key tokens now window 1 s =
      ((-1,
        min ⌈(((cumulative_count ((s.val previous_key).getD 0) ((s.val current_key).getD 0)
                now window 1 - tokens + 1) * window : Int) : ℚ)
            / ((((s.val previous_key).getD 0 : Int)) : ℚ)⌉
          (time_remaining_previous now window)), s) := by
  rw [script_deny current_key previous_key tokens now window 1 s hdeny]
  simp only [script_retry_after]
  rw [if_pos hp]
  have hmin : ∀ t u : Int, (if t > u then u else t) = min t u := by
    intro t u
    rcases lt_or_le u t with h | h
    · rw [if_pos h, min_eq_right h.le]
    · rw [if_neg (not_lt.mpr h), min_eq_left h]
  rw [hmin]

/-- Witness for C2 at a concrete denied call: previous counter 2, current
counter 0, limit 1, now 500, window 1000; retry_after is
min(⌈2·1000/2⌉, 500) = 500. -/
theorem script_denial_previous_positive_witness :
    (0 ≤ (storePrev2.val ("c")).getD 0) ∧
    (0 < (storePrev2.val ("p")).getD 0) ∧
    (1 < cumulative_count ((storePrev2.val ("p")).getD 0) ((storePrev2.val ("c")).getD 0)
      500 1000 1) ∧
    SLIDING_WINDOW_SCRIPT ("c") ("p") 1 500 1000 1 storePrev2 =
      ((-1,
        min ⌈(((cumulative_count ((storePrev2.val ("p")).getD 0) ((storePrev2.val ("c")).getD 0)
                500 1000 1 - 1 + 1) * 1000 : Int) : ℚ)
            / ((((storePrev2.val ("p")).getD 0 : Int)) : ℚ)⌉
          (time_remaining_previous 500 1000)), storePrev2) := by
  have hdeny : (1:Int) < cumulative_count ((storePrev2.val ("p")).getD 0)
      ((storePrev2.val ("c")).getD 0) 500 1000 1 := by
    show (1:Int) < cumulative_count 2 0 500 1000 1
    rw [cumulative_count_eq 2 0 500 1000 1 (by decide)]
    decide
  exact ⟨by decide, by decide, hdeny,
    script_denial_previous_positive ("c") ("p") 1 500 1000 storePrev2
      (by decide) (by decide) hdeny⟩

/-! ### Claim C4 -/

/-- Counterexample to C4: a denied sliding call with `previous_count = 0`
made mid-window (limit 1, now 500, window 1000, current counter 1) returns
`retry_after = 500`, not the full window 1000 the claim asserts. -/
theorem script_denial_zero_previous_counterexample :
    (SLIDING_WINDOW_SCRIPT ("c") ("p") 1 500 1000 1 storeCur1).1 = (-1, 500) ∧
    (500 : Int) ≠ 1000 := by
  have hdeny : (1:Int) < cumulative_count ((storeCur1.val ("p")).getD 0)
      ((storeCur1.val ("c")).getD 0) 500 1000 1 := by
    show (1:Int) < cumulative_count 0 1 500 1000 1
    rw [cumulative_count_eq 0 1 500 1000 1 (by decide)]
    decide
  constructor
  · rw [script_deny ("c") ("p") 1 500 1000 1 storeCur1 hdeny]
    have hr : script_retry_after ((storeCur1.val ("p")).getD 0) ((storeCur1.val ("c")).getD 0)
        1 500 1000 1 = 500 := by
      show script_retry_after 0 1 1 500 1000 1 = 500
      simp only [script_retry_after]
      rw [if_neg (by decide : ¬ ((0:Int) > 0))]
      decide
    rw [hr]
  · decide

/-- Amended claim C4: for every denied sliding call with
`previous_count = 0`, the returned `retry_after` is
`window - (now mod window)` — the time remaining in the current window —
which depends on how far into the window the call occurs (it equals
`window` only at exact window boundaries); the store is unchanged. -/
theorem script_denial_zero_previous (current_key previous_key : String)
    (tokens now window : Int) (s : Store)
    (hp : (s.val previous_key).getD 0 = 0)
    (hdeny : tokens < cumulative_count ((s.val previous_key).getD 0)
      ((s.val current_key).getD 0) now window 1) :
    SLIDING_WINDOW_SCRIPT current_key previous_key tokens now window 1 s =
      ((-1, window - time_in_current now window), s) := by
  rw [script_deny current_key previous_key tokens now window 1 s hdeny]
  simp only [script_retry_after, hp]
  rw [if_neg (by omega)]

/-- Witness for the amended C4 at the counterexample input: the denied
call at now = 500 in a 1000 ms window gets retry_after 1000 − 500. -/
theorem script_denial_zero_previous_witness :
    ((storeCur1.val ("p")).getD 0 = 0) ∧
    (1 < cumulative_count ((storeCur1.val ("p")).getD 0) ((storeCur1.val ("c")).getD 0)
      500 1000 1) ∧
    SLIDING_WINDOW_SCRIPT ("c") ("p") 1 500 1000 1 storeCur1 =
      ((-1, 1000 - time_in_current 500 1000), storeCur1) := by
  have hdeny : (1:Int) < cumulative_count ((storeCur1.val ("p")).getD 0)
      ((storeCur1.val ("c")).getD 0) 500 1000 1 := by
    show (1:Int) < cumulative_count 0 1 500 1000 1
    rw [cumulative_count_eq 0 1 500 1000 1 (by decide)]
    decide
  exact ⟨by decide, hdeny,
    script_denial_zero_previous ("c") ("p") 1 500 1000 storeCur1 (by decide) hdeny⟩

/-! ### Claim C1 -/

/-- Claim C1: for nonnegative stored counters (missing keys count 0),
limit > 0, window > 0, increment 1, if
`cumulative = ⌊previous·(window_ms − now mod window_ms)/window_ms⌋ + current + 1`
is at most the limit, then the sliding path writes `current + 1` to the
current key, sets its expiration to `2·window_ms + 1000` ms, and responds
success with retry_after 0, `remaining = limit − cumulative`, and
`reset = now2 + 2·window·1000` where `now2` is the second time reading. -/
theorem sliding_admit_path (o : RatelimitOptions) (identifier : String)
    (now now2 : Int) (s : Store)
    (hL : 0 < o.limit) (hW : 0 < o.window)
    (hc : 0 ≤ (s.val (Ratelimit.currentWindowKey o identifier now)).getD 0)
    (hp : 0 ≤ (s.val (Ratelimit.previousWindowKey o identifier now)).getD 0)
    (hadm : cumulative_count ((s.val (Ratelimit.previousWindowKey o identifier now)).getD 0)
        ((s.val (Ratelimit.currentWindowKey o identifier now)).getD 0)
        now (o.window * 1000) 1 ≤ o.limit) :
    ((Ratelimit.slidingWindowLimit o identifier now now2 s).2.val
        (Ratelimit.currentWindowKey o identifier now)
      = some ((s.val (Ratelimit.currentWindowKey o identifier now)).getD 0 + 1)) ∧
    ((Ratelimit.slidingWindowLimit o identifier now now2 s).2.pttl
        (Ratelimit.currentWindowKey o identifier now)
      = some (2 * (o.window * 1000) + 1000)) ∧
    (Ratelimit.slidingWindowLimit o identifier now now2 s).1.success = true ∧
    (Ratelimit.slidingWindowLimit o identifier now now2 s).1.retry_after = 0 ∧
    ((Ratelimit.slidingWindowLimit o identifier now now2 s).1.remaining
      = o.limit - cumulative_count ((s.val (Ratelimit.previousWindowKey o identifier now)).getD 0)
          ((s.val (Ratelimit.currentWindowKey o identifier now)).getD 0)
          now (o.window * 1000) 1) ∧
    (Ratelimit.slidingWindowLimit o identifier now now2 s).1.reset
      = now2 + 2 * o.window * 1000 := by
  simp only [Ratelimit.currentWindowKey, Ratelimit.previousWindowKey] at hc hp hadm ⊢
  simp only [Ratelimit.slidingWindowLimit]
  rw [script_grant _ _ _ _ _ _ _ hadm]
  unfold cumulative_count at hadm ⊢
  refine ⟨?_, ?_, ?_, ?_, ?_, ?_⟩
  · simp [Store.pexpire, Store.set]
  · simp [Store.pexpire, Store.set, mul_comm]
  · dsimp only
    simp only [ge_iff_le, decide_eq_true_eq]
    omega
  · rfl
  · dsimp only
    omega
  · dsimp only
    omega

/-- Witness for C1: limit 2, window 1 s, empty store, both time readings
0; the first call is admitted. -/
theorem sliding_admit_path_witness :
    (0 < oSliding21.limit) ∧ (0 < oSliding21.window) ∧
    (cumulative_count
        ((emptyStore.val (Ratelimit.previousWindowKey oSliding21 ("a") 0)).getD 0)
        ((emptyStore.val (Ratelimit.currentWindowKey oSliding21 ("a") 0)).getD 0)
        0 (oSliding21.window * 1000) 1 ≤ oSliding21.limit) ∧
    (Ratelimit.slidingWindowLimit oSliding21 ("a") 0 0 emptyStore).1.success = true := by
  have hadm : cumulative_count
      ((emptyStore.val (Ratelimit.previousWindowKey oSliding21 ("a") 0)).getD 0)
      ((emptyStore.val (Ratelimit.currentWindowKey oSliding21 ("a") 0)).getD 0)
      0 (oSliding21.window * 1000) 1 ≤ oSliding21.limit := by
    show cumulative_count 0 0 0 (oSliding21.window * 1000) 1 ≤ oSliding21.limit
    show cumulative_count 0 0 0 1000 1 ≤ 2
    rw [cumulative_count_eq 0 0 0 1000 1 (by decide)]
    decide
  exact ⟨by decide, by decide, hadm,
    (sliding_admit_path oSliding21 ("a") 0 0 emptyStore (by decide) (by decide)
      (by decide) (by decide) hadm).2.2.1⟩

/-! ### Claim C10 -/

/-- Claim C10: validation never tests integrality — with the non-integral
limit 2.5 (and window 10 > 0) the constructor succeeds, and a successful
fixed-window call from the empty store returns the non-integer
`remaining = 2.5 − 1 = 1.5`. -/
theorem nonintegral_options_allowed :
    JsNum.construct oQhalf = Except.ok oQhalf ∧
    (JsNum.fixedWindowLimit oQhalf ("a") 0 JsNum.emptyStore).1.success = true ∧
    (JsNum.fixedWindowLimit oQhalf ("a") 0 JsNum.emptyStore).1.remaining = 3 / 2 ∧
    ((3 / 2 : ℚ).den ≠ 1) := by
  refine ⟨?_, ?_, ?_, ?_⟩
  · simp only [JsNum.construct, JsNum.validateOptions, oQhalf, Except.map]
    rw [if_neg (by norm_num : ¬ ((5:ℚ)/2 ≤ 0)), if_neg (by norm_num : ¬ ((10:ℚ) ≤ 0))]
    simp
  · simp [JsNum.fixedWindowLimit, JsNum.Store.incr, JsNum.Store.set, JsNum.emptyStore, oQhalf]
    norm_num
  · simp [JsNum.fixedWindowLimit, JsNum.Store.incr, JsNum.Store.set, JsNum.emptyStore, oQhalf]
    norm_num
  · norm_num

/-! ### Claim C3 -/

/-- Claim C3: a fixed-window call INCRs the counter at
`key(id, ⌊now/(window·1000)⌋)`; a resulting count of 1 sets an expiration
of `window` seconds; a count above the limit yields a failure response
with `retry_after = max(ttl·1000, 0)` read back from the store and
`reset = (index+1)·window·1000`; otherwise a success response with
`remaining = limit − count`. -/
theorem fixed_window_behavior (o : RatelimitOptions) (identifier : String)
    (now : Int) (s : Store) :
    ((Ratelimit.fixedWindowLimit o identifier now s).2.val
        (Ratelimit.currentWindowKey o identifier now)
      = some ((s.val (Ratelimit.currentWindowKey o identifier now)).getD 0 + 1)) ∧
    ((s.val (Ratelimit.currentWindowKey o identifier now)).getD 0 + 1 = 1 →
      (Ratelimit.fixedWindowLimit o identifier now s).2.pttl
          (Ratelimit.currentWindowKey o identifier now)
        = some (o.window * 1000)) ∧
    (o.limit < (s.val (Ratelimit.currentWindowKey o identifier now)).getD 0 + 1 →
      (Ratelimit.fixedWindowLimit o identifier now s).1 =
        { success := false, limit := o.limit, remaining := 0,
          retry_after := max ((Ratelimit.fixedWindowLimit o identifier now s).2.ttl
            (Ratelimit.currentWindowKey o identifier now) * 1000) 0,
          reset := (Ratelimit.windowIndex o now + 1) * (o.window * 1000) }) ∧
    ((s.val (Ratelimit.currentWindowKey o identifier now)).getD 0 + 1 ≤ o.limit →
      (Ratelimit.fixedWindowLimit o identifier now s).1 =
        { success := true, limit := o.limit,
          remaining := o.limit - ((s.val (Ratelimit.currentWindowKey o identifier now)).getD 0 + 1),
          retry_after := 0,
          reset := (Ratelimit.windowIndex o now + 1) * (o.window * 1000) }) := by
  simp only [Ratelimit.currentWindowKey]
  simp only [Ratelimit.fixedWindowLimit, Store.incr]
  refine ⟨?_, ?_, ?_, ?_⟩
  · split_ifs <;> simp [Store.expire, Store.pexpire, Store.set]
  · intro h1
    rw [if_pos h1]
    split_ifs <;> simp [Store.expire, Store.pexpire, Store.set]
  · intro h
    rw [if_pos h]
  · intro h
    rw [if_neg (not_lt.mpr h)]

/-! ### Claim C9 -/

/-- Claim C9: every fixed-window call increments the stored counter before
the decision (denied calls included, so the stored value is unbounded by
the limit); the key's expiration is set only by the call observing
count 1 and later calls leave the TTL map untouched; and a denied sliding
script run returns the store completely unchanged. -/
theorem frame_effects (o : RatelimitOptions) (identifier : String) (now : Int) (s : Store)
    (current_key previous_key : String) (tokens nowS window increment_by : Int) (s2 : Store)
    (hdeny : tokens < cumulative_count ((s2.val previous_key).getD 0)
      ((s2.val current_key).getD 0) nowS window increment_by) :
    ((Ratelimit.fixedWindowLimit o identifier now s).2.val
        (Ratelimit.currentWindowKey o identifier now)
      = some ((s.val (Ratelimit.currentWindowKey o identifier now)).getD 0 + 1)) ∧
    ((s.val (Ratelimit.currentWindowKey o identifier now)).getD 0 + 1 ≠ 1 →
      (Ratelimit.fixedWindowLimit o identifier now s).2.pttl = s.pttl) ∧
    (SLIDING_WINDOW_SCRIPT current_key previous_key tokens nowS window increment_by s2).2
      = s2 := by
  simp only [Ratelimit.currentWindowKey]
  refine ⟨?_, ?_, ?_⟩
  · simp only [Ratelimit.fixedWindowLimit, Store.incr]
    split_ifs <;> simp [Store.expire, Store.pexpire, Store.set]
  · intro h1
    simp only [Ratelimit.fixedWindowLimit, Store.incr]
    rw [if_neg h1]
    split_ifs <;> simp [Store.set]
  · rw [script_deny current_key previous_key tokens nowS window increment_by s2 hdeny]

/-- Witness for C9: a concrete denied script call (store holding 1 in the
current bucket, limit 1, now 500, window 1000) leaves the store unchanged,
and the first fixed-window call on the empty store writes count 1. -/
theorem frame_effects_witness :
    (1 < cumulative_count ((storeCur1.val ("p")).getD 0) ((storeCur1.val ("c")).getD 0)
      500 1000 1) ∧
    ((Ratelimit.fixedWindowLimit oFixed11 ("a") 0 emptyStore).2.val
        (Ratelimit.currentWindowKey oFixed11 ("a") 0)
      = some ((emptyStore.val (Ratelimit.currentWindowKey oFixed11 ("a") 0)).getD 0 + 1)) ∧
    (SLIDING_WINDOW_SCRIPT ("c") ("p") 1 500 1000 1 storeCur1).2 = storeCur1 := by
  have hdeny : (1:Int) < cumulative_count ((storeCur1.val ("p")).getD 0)
      ((storeCur1.val ("c")).getD 0) 500 1000 1 := by
    show (1:Int) < cumulative_count 0 1 500 1000 1
    rw [cumulative_count_eq 0 1 500 1000 1 (by decide)]
    decide
  exact ⟨hdeny,
    (frame_effects oFixed11 ("a") 0 emptyStore ("c") ("p") 1 500 1000 1 storeCur1 hdeny).1,
    (frame_effects oFixed11 ("a") 0 emptyStore ("c") ("p") 1 500 1000 1 storeCur1 hdeny).2.2⟩

/-! ### Claim C7 -/

/-- Claim C7: construction raises exactly when `limit ≤ 0`, `window ≤ 0`,
or the kind is neither `"fixed"` nor `"sliding"`; the raised error is the
configuration-invalid kind; and `limit` never raises the
configuration-invalid kind (its only error kind is `ValkeyError`). -/
theorem config_validation (o : RatelimitOptions) :
    ((∃ e, Ratelimit.construct o = Except.error e) ↔
      (o.limit ≤ 0 ∨ o.window ≤ 0 ∨ (o.type ≠ ("fixed") ∧ o.type ≠ ("sliding")))) ∧
    (∀ e, Ratelimit.construct o = Except.error e → e.name = ("ConfigurationError")) ∧
    (∀ res e, limitCatch res = Except.error e → e.name = ("ValkeyError")) := by
  refine ⟨?_, ?_, ?_⟩
  · unfold Ratelimit.construct Ratelimit.validateOptions
    split_ifs with h1 h2 h3 <;>
      simp [Except.map, ConfigurationError, JsError.name]
    · tauto
    · tauto
    · tauto
    · exact ⟨by omega, by omega, by tauto⟩
  · intro e he
    unfold Ratelimit.construct Ratelimit.validateOptions at he
    split_ifs at he <;>
      simp [Except.map, ConfigurationError, JsError.name] at he <;>
      simp [← he, ConfigurationError, JsError.name]
  · intro res e he
    cases res with
    | ok r => simp [limitCatch] at he
    | error t =>
      simp [limitCatch, ValkeyError] at he
      simp [← he, JsError.name]

/-! ### Claim C8 -/

/-- Claim C8: every store error thrown during `limit` is rethrown as the
store-operation kind with exactly the message
`"Failed to check rate limit"` and the original thrown value attached as
the cause; `limit` produces no other error kind. -/
theorem store_errors_wrapped (t : Thrown) (res : Except Thrown RatelimitResponse) :
    (limitCatch (Except.error t)
      = Except.error (JsError.mk ("ValkeyError") ("Failed to check rate limit")
          (some t.toError))) ∧
    (∀ e, limitCatch res = Except.error e →
      e.name = ("ValkeyError") ∧ e.message = ("Failed to check rate limit") ∧
      ∃ t2, res = Except.error t2 ∧ e.cause = some t2.toError) := by
  constructor
  · rfl
  · intro e he
    cases res with
    | ok r => simp [limitCatch] at he
    | error t2 =>
      simp [limitCatch, ValkeyError] at he
      exact ⟨by simp [← he, JsError.name], by simp [← he, JsError.message],
        t2, rfl, by simp [← he, JsError.cause]⟩

/-! ### Claim C5 -/

/-- Counterexample to C5: with nonnegative counters (value 1 at the
fixed-window key, the limit), but no TTL on the key (as after a dropped
EXPIRE), the denied fixed-window call returns `retry_after = 0`, violating
the claimed `retry_after > 0` for failures. -/
theorem response_invariants_counterexample :
    (Ratelimit.limit oFixed11 ("a") 0 0 storeFull1).1.success = false ∧
    (Ratelimit.limit oFixed11 ("a") 0 0 storeFull1).1.retry_after = 0 := by
  have hwi : Ratelimit.windowIndex oFixed11 0 = 0 := by
    rw [windowIndex_eq oFixed11 0 (by decide)]
    decide
  constructor <;>
  · simp only [Ratelimit.limit, Ratelimit.fixedWindowLimit, Store.incr, hwi]
    decide

/-- Amended claim C5: for every call on a store whose counters are all
nonnegative, with window > 0 and monotone time readings: success responses
have `retry_after = 0` and `remaining ∈ [0, limit − 1]`; failure responses
have `remaining = 0` and `retry_after ≥ 0`, with `retry_after > 0`
guaranteed on the sliding path (on the fixed path the TTL read back can be
nonpositive, e.g. for a key with no expiration, making `retry_after = 0`
possible); and `reset` strictly exceeds the time reading(s) of the call. -/
theorem response_invariants (o : RatelimitOptions) (identifier : String)
    (now now2 : Int) (s : Store)
    (hW : 0 < o.window)
    (hmono : now ≤ now2)
    (hvals : ∀ k v, s.val k = some v → 0 ≤ v) :
    ((Ratelimit.limit o identifier now now2 s).1.success = true →
      (Ratelimit.limit o identifier now now2 s).1.retry_after = 0 ∧
      0 ≤ (Ratelimit.limit o identifier now now2 s).1.remaining ∧
      (Ratelimit.limit o identifier now now2 s).1.remaining ≤ o.limit - 1) ∧
    ((Ratelimit.limit o identifier now now2 s).1.success = false →
      (Ratelimit.limit o identifier now now2 s).1.remaining = 0 ∧
      0 ≤ (Ratelimit.limit o identifier now now2 s).1.retry_after) ∧
    (o.type ≠ ("fixed") → (Ratelimit.limit o identifier now now2 s).1.success = false →
      0 < (Ratelimit.limit o identifier now now2 s).1.retry_after) ∧
    (now < (Ratelimit.limit o identifier now now2 s).1.reset) ∧
    (o.type ≠ ("fixed") → now2 < (Ratelimit.limit o identifier now now2 s).1.reset) := by
  have hval_nonneg : ∀ k, 0 ≤ (s.val k).getD 0 := by
    intro k
    cases hk : s.val k with
    | none => simp
    | some v => simpa using hvals k v hk
  have hw1000 : (0:Int) < o.window * 1000 := by omega
  have hreset : now < (Ratelimit.windowIndex o now + 1) * (o.window * 1000) := by
    rw [windowIndex_eq o now hW]
    exact Int.lt_ediv_add_one_mul_self now hw1000
  by_cases hty : o.type = ("fixed")
  · -- fixed-window branch
    simp only [Ratelimit.limit, if_pos hty]
    simp only [Ratelimit.fixedWindowLimit, Store.incr]
    set ck := Ratelimit.getKey o identifier (toString (Ratelimit.windowIndex o now)) with hck
    have hc := hval_nonneg ck
    by_cases hdec : o.limit < (s.val ck).getD 0 + 1
    · rw [if_pos hdec]
      refine ⟨?_, ?_, ?_, ?_, ?_⟩
      · intro h
        simp at h
      · intro _
        exact ⟨rfl, le_max_right _ _⟩
      · intro h
        exact absurd hty (by simpa using h)
      · exact hreset
      · intro h
        exact absurd hty (by simpa using h)
    · rw [if_neg hdec]
      refine ⟨?_, ?_, ?_, ?_, ?_⟩
      · intro _
        refine ⟨rfl, ?_, ?_⟩ <;> try dsimp only
        all_goals omega
      · intro h
        simp at h
      · intro h
        exact absurd hty (by simpa using h)
      · exact hreset
      · intro h
        exact absurd hty (by simpa using h)
  · -- sliding-window branch
    simp only [Ratelimit.limit, if_neg hty]
    simp only [Ratelimit.slidingWindowLimit]
    set ck := Ratelimit.getKey o identifier (toString (Ratelimit.windowIndex o now)) with hck
    set pk := Ratelimit.getKey o identifier (toString (Ratelimit.windowIndex o now - 1)) with hpk
    have hc := hval_nonneg ck
    have hp := hval_nonneg pk
    have hfl := floor_weighted_nonneg (p := (s.val pk).getD 0) now hp hw1000
    by_cases hdeny : o.limit < cumulative_count ((s.val pk).getD 0) ((s.val ck).getD 0)
        now (o.window * 1000) 1
    · rw [script_deny ck pk o.limit now (o.window * 1000) 1 s hdeny]
      have hretry : 0 < script_retry_after ((s.val pk).getD 0) ((s.val ck).getD 0)
          o.limit now (o.window * 1000) 1 := by
        unfold script_retry_after
        by_cases hppos : (s.val pk).getD 0 > 0
        · rw [if_pos hppos]
          try dsimp only
          have htrem : 0 < time_remaining_previous now (o.window * 1000) :=
            time_remaining_previous_pos now hw1000
          have hneed : 0 < cumulative_count ((s.val pk).getD 0) ((s.val ck).getD 0)
              now (o.window * 1000) 1 - o.limit + 1 := by omega
          have hceil : 0 < ⌈(((cumulative_count ((s.val pk).getD 0) ((s.val ck).getD 0)
              now (o.window * 1000) 1 - o.limit + 1) * (o.window * 1000) : Int) : ℚ)
              / ((((s.val pk).getD 0 : Int)) : ℚ)⌉ := by
            apply Int.ceil_pos.mpr
            apply div_pos
            · exact_mod_cast mul_pos hneed hw1000
            · exact_mod_cast hppos
          split_ifs <;> omega
        · rw [if_neg hppos]
          have := time_in_current_lt now hw1000
          omega
      refine ⟨?_, ?_, ?_, ?_, ?_⟩
      · intro h
        simp at h
      · intro _
        try dsimp only
        exact ⟨by omega, hretry.le⟩
      · intro _ _
        exact hretry
      · try dsimp only
        omega
      · intro _
        try dsimp only
        omega
    · rw [script_grant ck pk o.limit now (o.window * 1000) 1 s (not_lt.mp hdeny)]
      unfold cumulative_count at hdeny
      refine ⟨?_, ?_, ?_, ?_, ?_⟩
      · intro _
        refine ⟨rfl, ?_, ?_⟩ <;> try dsimp only
        all_goals omega
      · intro h
        try dsimp only at h
        simp only [ge_iff_le, decide_eq_false_iff_not, not_le] at h
        omega
      · intro _ h
        try dsimp only at h
        simp only [ge_iff_le, decide_eq_false_iff_not, not_le] at h
        omega
      · try dsimp only
        omega
      · intro _
        try dsimp only
        omega

/-! ### Decimal representation lemmas (for key distinctness) -/

/-- Unfolding equation for `decDigits`. -/
lemma decDigits_def (n : Nat) :
    decDigits n = if n < 10 then [Nat.digitChar n]
      else decDigits (n / 10) ++ [Nat.digitChar (n % 10)] := by
  rw [decDigits]
  split_ifs <;> rfl

/-- A decimal representation is never empty. -/
lemma decDigits_ne_nil (n : Nat) : decDigits n ≠ [] := by
  rw [decDigits_def]
  split_ifs <;> simp

/-- Distinct digits below 10 get distinct digit characters. -/
lemma digitChar_inj : ∀ a, a < 10 → ∀ b, b < 10 →
    Nat.digitChar a = Nat.digitChar b → a = b := by
  decide

/-- No digit character below 10 is the minus sign. -/
lemma digitChar_ne_minus : ∀ a, a < 10 → Nat.digitChar a ≠ ('-') := by
  decide

/-- The minus sign never appears in a decimal representation. -/
lemma neg_not_mem_decDigits (n : Nat) : ('-') ∉ decDigits n := by
  induction n using Nat.strong_induction_on with
  | _ n ih =>
    rw [decDigits_def]
    split_ifs with h
    · simp
      exact fun hc => digitChar_ne_minus n h hc.symm
    · intro hmem
      rcases List.mem_append.mp hmem with hmem | hmem
      · exact ih (n / 10) (Nat.div_lt_self (by omega) (by omega)) hmem
      · have hc := List.mem_singleton.mp hmem
        exact digitChar_ne_minus (n % 10) (Nat.mod_lt n (by omega)) hc.symm

/-- Function `decDigits` is injective. -/
lemma decDigits_injective : ∀ m n : Nat, decDigits m = decDigits n → m = n := by
  intro m
  induction m using Nat.strong_induction_on with
  | _ m ih =>
    intro n h
    rw [decDigits_def m, decDigits_def n] at h
    by_cases hm : m < 10 <;> by_cases hn : n < 10
    · rw [if_pos hm, if_pos hn] at h
      exact digitChar_inj m hm n hn (List.singleton_injective h)
    · exfalso
      rw [if_pos hm, if_neg hn] at h
      have hlen := congrArg List.length h
      rw [List.length_singleton, List.length_append, List.length_singleton] at hlen
      exact decDigits_ne_nil (n / 10) (List.length_eq_zero.mp (by omega))
    · exfalso
      rw [if_neg hm, if_pos hn] at h
      have hlen := congrArg List.length h
      rw [List.length_append, List.length_singleton, List.length_singleton] at hlen
      exact decDigits_ne_nil (m / 10) (List.length_eq_zero.mp (by omega))
    · rw [if_neg hm, if_neg hn] at h
      obtain ⟨h1, h2⟩ := List.append_inj' h (by simp)
      have hd : m / 10 = n / 10 :=
        ih (m / 10) (Nat.div_lt_self (by omega) (by omega)) (n / 10) h1
      have hm10 : m % 10 = n % 10 :=
        digitChar_inj (m % 10) (Nat.mod_lt m (by omega)) (n % 10)
          (Nat.mod_lt n (by omega)) (List.singleton_injective h2)
      omega

/-- Expresses `Nat.repr` through `decDigits`. -/
lemma natRepr_eq (n : Nat) : Nat.repr n = (decDigits n).asString := by
  show (Nat.toDigits 10 n).asString = (decDigits n).asString
  congr 1
  show Nat.toDigitsCore 10 (n + 1) n [] = decDigits n
  have key : ∀ f : Nat, ∀ n ds, n < f →
      Nat.toDigitsCore 10 f n ds = decDigits n ++ ds := by
    intro f
    induction f with
    | zero => omega
    | succ f ih =>
      intro n ds hnf
      show (if n / 10 = 0 then Nat.digitChar (n % 10) :: ds
        else Nat.toDigitsCore 10 f (n / 10) (Nat.digitChar (n % 10) :: ds)) = _
      by_cases h0 : n / 10 = 0
      · rw [if_pos h0]
        have hn : n < 10 := by omega
        rw [decDigits_def, if_pos hn, Nat.mod_eq_of_lt hn]
        rfl
      · rw [if_neg h0]
        have hlt : n / 10 < f := by omega
        rw [ih (n / 10) (Nat.digitChar (n % 10) :: ds) hlt]
        rw [decDigits_def n, if_neg (by omega)]
        simp
  rw [key (n + 1) n [] (by omega)]
  simp

/-- Function `Nat.repr` is injective. -/
lemma natRepr_injective (m n : Nat) (h : Nat.repr m = Nat.repr n) : m = n := by
  rw [natRepr_eq, natRepr_eq] at h
  exact decDigits_injective m n (congrArg String.data h)

/-- Function `toString` on integers (as used for key suffixes) is injective. -/
lemma intToString_injective (a b : Int) (h : toString a = toString b) : a = b := by
  cases a with
  | ofNat m =>
    cases b with
    | ofNat n =>
      have h2 : Nat.repr m = Nat.repr n := h
      rw [natRepr_injective m n h2]
    | negSucc n =>
      exfalso
      have h2 : Nat.repr m = ("-") ++ Nat.repr (n + 1) := h
      have h3 := congrArg String.data h2
      rw [String.data_append, natRepr_eq] at h3
      have hmem : ('-') ∈ (decDigits m) := by
        rw [show ((decDigits m).asString).data = decDigits m from rfl] at h3
        rw [h3]
        exact List.mem_append.mpr (Or.inl (List.mem_singleton.mpr rfl))
      exact neg_not_mem_decDigits m hmem
  | negSucc m =>
    cases b with
    | ofNat n =>
      exfalso
      have h2 : ("-") ++ Nat.repr (m + 1) = Nat.repr n := h
      have h3 := congrArg String.data h2
      rw [String.data_append, natRepr_eq n] at h3
      have hmem : ('-') ∈ (decDigits n) := by
        rw [show ((decDigits n).asString).data = decDigits n from rfl] at h3
        rw [← h3]
        exact List.mem_append.mpr (Or.inl (by decide))
      exact neg_not_mem_decDigits n hmem
    | negSucc n =>
      have h2 : ("-") ++ Nat.repr (m + 1) = ("-") ++ Nat.repr (n + 1) := h
      have h3 := congrArg String.data h2
      rw [String.data_append, String.data_append] at h3
      have h4 : (Nat.repr (m + 1)).data = (Nat.repr (n + 1)).data :=
        List.append_cancel_left h3
      have h5 : Nat.repr (m + 1) = Nat.repr (n + 1) := String.ext h4
      have hmn : m = n := by
        have := natRepr_injective (m + 1) (n + 1) h5
        omega
      rw [hmn]

/-- Function `getKey` is injective in the suffix (same options, same identifier). -/
lemma getKey_suffix_inj (o : RatelimitOptions) (identifier : String) {s1 s2 : String}
    (h : Ratelimit.getKey o identifier s1 = Ratelimit.getKey o identifier s2) :
    s1 = s2 := by
  unfold Ratelimit.getKey at h
  have hd := congrArg String.data h
  simp only [String.data_append] at hd
  exact String.ext (List.append_cancel_left hd)

/-- The current and previous window keys of a sliding call are distinct. -/
lemma currentWindowKey_ne_previousWindowKey (o : RatelimitOptions) (identifier : String)
    (now : Int) :
    Ratelimit.currentWindowKey o identifier now ≠ Ratelimit.previousWindowKey o identifier now := by
  intro h
  unfold Ratelimit.currentWindowKey Ratelimit.previousWindowKey at h
  have h2 := getKey_suffix_inj o identifier h
  have h3 := intToString_injective _ _ h2
  omega

/-! ### Sequential-call lemmas -/

/-- The weighted previous contribution of an empty previous bucket is 0. -/
lemma floor_weighted_zero (now window : Int) :
    ⌊weighted_previous 0 now window⌋ = 0 := by
  unfold weighted_previous
  norm_num

/-- Fixed-window invariant: after `n` frozen-time calls from the empty
store the window counter holds `n` (absent for `n = 0`). -/
lemma storeAfter_fixed_val (o : RatelimitOptions) (identifier : String) (now : Int)
    (hty : o.type = ("fixed")) :
    ∀ n : ℕ, (Ratelimit.storeAfter o identifier now n).val
        (Ratelimit.currentWindowKey o identifier now)
      = (if n = 0 then none else some ((n : Int))) := by
  intro n
  induction n with
  | zero => rfl
  | succ n ih =>
    simp only [Ratelimit.currentWindowKey] at ih ⊢
    simp only [Ratelimit.storeAfter]
    simp only [Ratelimit.limit, if_pos hty, Ratelimit.fixedWindowLimit, Store.incr]
    have hcnt : ((Ratelimit.storeAfter o identifier now n).val
        (Ratelimit.getKey o identifier (toString (Ratelimit.windowIndex o now)))).getD 0
        = (n : Int) := by
      rw [ih]
      split_ifs with h0
      · subst h0
        simp
      · simp
    rw [hcnt, if_neg (Nat.succ_ne_zero n)]
    split_ifs <;>
      simp [Store.expire, Store.pexpire, Store.set, Option.some.injEq] <;>
      omega

/-- Sliding-window invariant: after `n` frozen-time calls from the empty
store the current counter holds `min n limit` (absent for `n = 0`) and
the previous counter stays absent. -/
lemma storeAfter_sliding_val (o : RatelimitOptions) (identifier : String) (now : Int)
    (hty : ¬ o.type = ("fixed")) (hL : 0 < o.limit) (hW : 0 < o.window) :
    ∀ n : ℕ,
      ((Ratelimit.storeAfter o identifier now n).val
          (Ratelimit.currentWindowKey o identifier now)
        = (if n = 0 then none else some (min ((n : Int)) o.limit))) ∧
      ((Ratelimit.storeAfter o identifier now n).val
          (Ratelimit.previousWindowKey o identifier now)
        = none) := by
  intro n
  induction n with
  | zero => exact ⟨rfl, rfl⟩
  | succ n ih =>
    obtain ⟨ihc, ihp⟩ := ih
    have hkne := currentWindowKey_ne_previousWindowKey o identifier now
    simp only [Ratelimit.currentWindowKey, Ratelimit.previousWindowKey] at ihc ihp hkne ⊢
    simp only [Ratelimit.storeAfter]
    simp only [Ratelimit.limit, if_neg hty, Ratelimit.slidingWindowLimit]
    have hcget : ((Ratelimit.storeAfter o identifier now n).val
        (Ratelimit.getKey o identifier (toString (Ratelimit.windowIndex o now)))).getD 0
        = min ((n : Int)) o.limit := by
      rw [ihc]
      split_ifs with h0
      · subst h0
        simp only [Option.getD_none]
        omega
      · simp only [Option.getD_some]
    have hpget : ((Ratelimit.storeAfter o identifier now n).val
        (Ratelimit.getKey o identifier (toString (Ratelimit.windowIndex o now - 1)))).getD 0
        = 0 := by
      rw [ihp]
      rfl
    have hw0 := floor_weighted_zero now (o.window * 1000)
    by_cases hn : (n : Int) < o.limit
    · have hadm : cumulative_count
          ((((Ratelimit.storeAfter o identifier now n)).val
            (Ratelimit.getKey o identifier (toString (Ratelimit.windowIndex o now - 1)))).getD 0)
          ((((Ratelimit.storeAfter o identifier now n)).val
            (Ratelimit.getKey o identifier (toString (Ratelimit.windowIndex o now)))).getD 0)
          now (o.window * 1000) 1 ≤ o.limit := by
        rw [hpget, hcget]
        unfold cumulative_count
        rw [hw0]
        omega
      rw [script_grant _ _ _ _ _ _ _ hadm]
      constructor
      · simp [Store.pexpire, Store.set, hcget, Option.some.injEq]
        omega
      · simp [Store.pexpire, Store.set, (Ne.symm hkne), ihp]
    · have hden : o.limit < cumulative_count
          ((((Ratelimit.storeAfter o identifier now n)).val
            (Ratelimit.getKey o identifier (toString (Ratelimit.windowIndex o now - 1)))).getD 0)
          ((((Ratelimit.storeAfter o identifier now n)).val
            (Ratelimit.getKey o identifier (toString (Ratelimit.windowIndex o now)))).getD 0)
          now (o.window * 1000) 1 := by
        rw [hpget, hcget]
        unfold cumulative_count
        rw [hw0]
        omega
      rw [script_deny _ _ _ _ _ _ _ hden]
      have hn0 : n ≠ 0 := by omega
      constructor
      · rw [ihc, if_neg hn0, if_neg (Nat.succ_ne_zero n)]
        simp only [Option.some.injEq]
        omega
      · exact ihp

/-! ### Claim C6 -/

/-- Claim C6: for every limit > 0, window > 0 and identifier, starting from
the empty store with time frozen inside one window, the `(n+1)`-th
sequential call succeeds with `remaining = limit − 1 − n` when
`n < limit`, and fails once `n ≥ limit` — so exactly the first `limit`
calls succeed, with remaining values `limit−1, …, 0` in order, for both
algorithms. -/
theorem sequential_calls (o : RatelimitOptions) (identifier : String) (now : Int)
    (hL : 0 < o.limit) (hW : 0 < o.window) (n : ℕ) :
    (((n : Int) < o.limit) →
      (Ratelimit.nthResponse o identifier now n).success = true ∧
      (Ratelimit.nthResponse o identifier now n).remaining = o.limit - 1 - (n : Int)) ∧
    ((o.limit ≤ (n : Int)) →
      (Ratelimit.nthResponse o identifier now n).success = false) := by
  unfold Ratelimit.nthResponse
  by_cases hty : o.type = ("fixed")
  · have hval := storeAfter_fixed_val o identifier now hty n
    simp only [Ratelimit.currentWindowKey] at hval
    simp only [Ratelimit.limit, if_pos hty, Ratelimit.fixedWindowLimit, Store.incr]
    have hcnt : ((Ratelimit.storeAfter o identifier now n).val
        (Ratelimit.getKey o identifier (toString (Ratelimit.windowIndex o now)))).getD 0
        = (n : Int) := by
      rw [hval]
      split_ifs with h0
      · subst h0
        simp
      · simp
    rw [hcnt]
    constructor
    · intro hn
      rw [if_neg (by omega : ¬ ((n : Int) + 1 > o.limit))]
      refine ⟨rfl, ?_⟩
      try dsimp only
      omega
    · intro hn
      rw [if_pos (by omega : (n : Int) + 1 > o.limit)]
  · obtain ⟨hvc, hvp⟩ := storeAfter_sliding_val o identifier now hty hL hW n
    simp only [Ratelimit.currentWindowKey, Ratelimit.previousWindowKey] at hvc hvp
    simp only [Ratelimit.limit, if_neg hty, Ratelimit.slidingWindowLimit]
    have hcget : ((Ratelimit.storeAfter o identifier now n).val
        (Ratelimit.getKey o identifier (toString (Ratelimit.windowIndex o now)))).getD 0
        = min ((n : Int)) o.limit := by
      rw [hvc]
      split_ifs with h0
      · subst h0
        simp only [Option.getD_none]
        omega
      · simp only [Option.getD_some]
    have hpget : ((Ratelimit.storeAfter o identifier now n).val
        (Ratelimit.getKey o identifier (toString (Ratelimit.windowIndex o now - 1)))).getD 0
        = 0 := by
      rw [hvp]
      rfl
    have hw0 := floor_weighted_zero now (o.window * 1000)
    by_cases hn : (n : Int) < o.limit
    · have hadm : cumulative_count
          ((((Ratelimit.storeAfter o identifier now n)).val
            (Ratelimit.getKey o identifier (toString (Ratelimit.windowIndex o now - 1)))).getD 0)
          ((((Ratelimit.storeAfter o identifier now n)).val
            (Ratelimit.getKey o identifier (toString (Ratelimit.windowIndex o now)))).getD 0)
          now (o.window * 1000) 1 ≤ o.limit := by
        rw [hpget, hcget]
        unfold cumulative_count
        rw [hw0]
        omega
      rw [script_grant _ _ _ _ _ _ _ hadm]
      rw [hpget, hcget, hw0]
      constructor
      · intro _
        constructor
        · try dsimp only
          simp only [ge_iff_le, decide_eq_true_eq]
          omega
        · try dsimp only
          omega
      · intro hnn
        exact absurd hnn (by omega)
    · have hden : o.limit < cumulative_count
          ((((Ratelimit.storeAfter o identifier now n)).val
            (Ratelimit.getKey o identifier (toString (Ratelimit.windowIndex o now - 1)))).getD 0)
          ((((Ratelimit.storeAfter o identifier now n)).val
            (Ratelimit.getKey o identifier (toString (Ratelimit.windowIndex o now)))).getD 0)
          now (o.window * 1000) 1 := by
        rw [hpget, hcget]
        unfold cumulative_count
        rw [hw0]
        omega
      rw [script_deny _ _ _ _ _ _ _ hden]
      constructor
      · intro hnn
        exact absurd hnn (by omega)
      · intro _
        rfl

/-- Witness for C6: limit 1, window 1 s, identifier `"a"`, time frozen at
0; the first call succeeds. -/
theorem sequential_calls_witness :
    (0 < oFixed11.limit) ∧ (0 < oFixed11.window) ∧
    (Ratelimit.nthResponse oFixed11 ("a") 0 0).success = true :=
  ⟨by decide, by decide,
    ((sequential_calls oFixed11 ("a") 0 (by decide) (by decide) 0).1 (by decide)).1⟩

/-- Witness for C5 (amended): the empty store has only nonnegative
counters; the first fixed-window call's `reset` lies strictly in the
future. -/
theorem response_invariants_witness :
    (0 < oFixed11.window) ∧ ((0:Int) ≤ 0) ∧
    (∀ (k : String) (v : Int), emptyStore.val k = some v → 0 ≤ v) ∧
    (0 < (Ratelimit.limit oFixed11 ("a") 0 0 emptyStore).1.reset) := by
  have hvals : ∀ (k : String) (v : Int), emptyStore.val k = some v → 0 ≤ v := by
    intro k v h
    simp [emptyStore] at h
  exact ⟨by decide, by decide, hvals,
    (response_invariants oFixed11 ("a") 0 0 emptyStore (by decide) (by decide)
      hvals).2.2.2.1⟩
